import Mathlib

/-!
Shallow embedding of the waybar-timer service (src/main.rs).

Time is modelled in integer milliseconds: an absolute instant
(OffsetDateTime) and a Duration both become Int, since every duration the
program builds (Duration::minutes, Duration::seconds, Duration::MILLISECOND)
is a whole number of milliseconds.  Rust integer division and remainder
truncate toward zero, so Duration::whole_minutes on a value of d
milliseconds is Int.tdiv d 60000 and i32 % is Int.tmod.
-/

/-- The two domain errors of the command interface (enum WorldError). -/
inductive WorldError where
  | NoTimerExisting
  | TimerAlreadyExisting
deriving DecidableEq, Repr

/-- enum TimerKind: the phase of the timer, with its payload fields.
expiry is an absolute instant in ms; time_left a signed duration in ms. -/
inductive TimerKind where
  | Idle : TimerKind
  | Running (expiry : Int) (command : Option String) : TimerKind
  | Paused (time_left : Int) (command : Option String) : TimerKind
deriving DecidableEq, Repr

/-- struct Timer { cycles: i32, kind: TimerKind }. -/
structure Timer where
  cycles : Int
  kind : TimerKind
deriving DecidableEq, Repr

/-- Whether the phase is Running. -/
def TimerKind.isRunning : TimerKind → Bool
  | .Running _ _ => true
  | _ => false

/-- Whether the phase is Paused. -/
def TimerKind.isPaused : TimerKind → Bool
  | .Paused _ _ => true
  | _ => false

/-- Whether the phase is Idle. -/
def TimerKind.isIdle : TimerKind → Bool
  | .Idle => true
  | _ => false

/-- The structured status payload: the four fields of the JSON line the
renderer prints for waybar.  text is kept as the signed minute count the
code computes before string conversion. -/
structure Payload where
  text : Int
  alt : String
  tooltip : String
  cssClass : String
deriving DecidableEq, Repr

/-- Zero-padded two-digit decimal, for the [hour]:[minute] format. -/
def pad2 (n : Nat) : String :=
  if n < 10 then "0" ++ toString n else toString n

/-- Format an absolute instant (ms) as HH:MM of its day, mirroring
format_description!("[hour]:[minute]") on an OffsetDateTime. -/
def formatHM (ms : Int) : String :=
  let minutesOfDay := (Int.emod (Int.tdiv ms 60000) 1440).toNat
  pad2 (minutesOfDay / 60) ++ ":" ++ pad2 (minutesOfDay % 60)

/-- Timer::tooltip: the tooltip string for a Running timer. -/
def Timer.tooltipStr (expiry : Int) : String :=
  "Timer expires at " ++ formatHM expiry

/-- The JSON line Timer::update formats from the four payload fields. -/
def Payload.render (p : Payload) : String :=
  "\x7b\"text\": \"" ++ toString p.text ++ "\", \"alt\": \"" ++ p.alt ++
    "\", \"tooltip\": \"" ++ p.tooltip ++ "\", \"class\": \"" ++ p.cssClass ++ "\"\x7d"

/-- Timer::update (tick_and_render): if Running and expired (time left <= 0)
move to Idle and bump cycles, then render the (possibly updated) phase.
now is the instant OffsetDateTime::now_local() returns for this call. -/
def Timer.update (now : Int) (t : Timer) : Timer × Payload :=
  let t1 : Timer :=
    match t.kind with
    | .Running expiry _ =>
        if expiry - now ≤ 0 then { cycles := t.cycles + 1, kind := .Idle } else t
    | _ => t
  let focusBreak : String := if Int.tmod t1.cycles 2 = 0 then "focus" else "break"
  let payload : Payload :=
    match t1.kind with
    | .Idle =>
        { text := 0, alt := "standby-" ++ focusBreak,
          tooltip := "No timer set", cssClass := "idle" }
    | .Running expiry _ =>
        { text := Int.tdiv (expiry - now) 60000 + 1, alt := "running-" ++ focusBreak,
          tooltip := Timer.tooltipStr expiry, cssClass := focusBreak }
    | .Paused time_left _ =>
        { text := Int.tdiv time_left 60000 + 1, alt := "paused-" ++ focusBreak,
          tooltip := "Timer paused", cssClass := focusBreak }
  (t1, payload)

/-- Timer::cancel: idle-cancel resets cycles to 0; any phase becomes Idle;
always Ok. -/
def Timer.cancel (t : Timer) : Timer × Except WorldError Unit :=
  match t.kind with
  | .Idle => ({ cycles := 0, kind := .Idle }, .ok ())
  | _ => ({ t with kind := .Idle }, .ok ())

/-- The minutes chosen by Timer::start from cycles % 8 (Rust i32 %,
truncated remainder). -/
def startMinutes (cycles : Int) : Int :=
  let r := Int.tmod cycles 8
  if r = 1 ∨ r = 3 ∨ r = 5 then 5 else 25

/-- Timer::togglepause: Running captures time_left = expiry - now and
pauses; Paused resumes with expiry = now + time_left; Idle errors.  The
command is taken from the old phase into the new one. -/
def Timer.togglepause (now : Int) (t : Timer) : Timer × Except WorldError Unit :=
  match t.kind with
  | .Running expiry command =>
      ({ t with kind := .Paused (expiry - now) command }, .ok ())
  | .Paused time_left command =>
      ({ t with kind := .Running (now + time_left) command }, .ok ())
  | .Idle => (t, .error .NoTimerExisting)

/-- Timer::start: Idle starts a Running timer expiring at
now + minutes - 1ms; an active timer delegates to togglepause. -/
def Timer.start (now : Int) (command : Option String) (t : Timer) :
    Timer × Except WorldError Unit :=
  let minutes := startMinutes t.cycles
  match t.kind with
  | .Idle =>
      ({ t with kind := .Running (now + minutes * 60000 - 1) command }, .ok ())
  | _ => Timer.togglepause now t

/-- Timer::increase: shift expiry (Running) or time_left (Paused) by
seconds; Idle errors. -/
def Timer.increase (seconds : Int) (t : Timer) : Timer × Except WorldError Unit :=
  match t.kind with
  | .Running expiry command =>
      ({ t with kind := .Running (expiry + seconds * 1000) command }, .ok ())
  | .Paused time_left command =>
      ({ t with kind := .Paused (time_left + seconds * 1000) command }, .ok ())
  | .Idle => (t, .error .NoTimerExisting)

/-- Timer::skip: Running jumps expiry to now; Paused zeroes time_left and
resumes through togglepause; Idle errors. -/
def Timer.skip (now : Int) (t : Timer) : Timer × Except WorldError Unit :=
  match t.kind with
  | .Idle => (t, .error .NoTimerExisting)
  | .Running _ command => ({ t with kind := .Running now command }, .ok ())
  | .Paused _ command => Timer.togglepause now { t with kind := .Paused 0 command }

/-- The public operations of the service (command verbs plus the tick). -/
inductive Op where
  | start (command : Option String)
  | cancel
  | increase (seconds : Int)
  | skip
  | togglepause
  | tick
deriving DecidableEq, Repr

/-- The state transition an operation performs at instant now (result
discarded: on a domain error the timer is unchanged). -/
def applyOp (now : Int) (op : Op) (t : Timer) : Timer :=
  match op with
  | .start c => (Timer.start now c t).1
  | .cancel => (Timer.cancel t).1
  | .increase s => (Timer.increase s t).1
  | .skip => (Timer.skip now t).1
  | .togglepause => (Timer.togglepause now t).1
  | .tick => (Timer.update now t).1

/-- States reachable from the initial state run_serve builds
(cycles = 0, Idle) through any sequence of public operations at any
instants. -/
inductive Reachable : Timer → Prop where
  | init : Reachable { cycles := 0, kind := .Idle }
  | step : ∀ {t : Timer} (now : Int) (op : Op), Reachable t → Reachable (applyOp now op t)

/-- Vec::swap_remove(i): replace element i with the last element and pop.
On an empty list (never hit by the loop) it is the identity. -/
def swapRemove (l : List α) (i : Nat) : List α :=
  match l.getLast? with
  | none => l
  | some last => (l.set i last).dropLast

/-- The broadcast loop of ServerState::update: walk the subscriber list by
index; a successful write moves on, a failed write swap-removes the
subscriber and retries the same index.  Returns the final subscriber list
and the subscribers successfully written to, in write order.
ok says whether the write to a given subscriber succeeds. -/
def updateLoop (ok : Nat → Bool) (subs : List Nat) (i : Nat) (written : List Nat) :
    List Nat × List Nat :=
  if h : i < subs.length then
    let s := subs.get ⟨i, h⟩
    if ok s then
      updateLoop ok subs (i + 1) (written ++ [s])
    else
      updateLoop ok (swapRemove subs i) i written
  else
    (subs, written)
termination_by subs.length - i
decreasing_by
  · omega
  · have hlen : (swapRemove subs i).length = subs.length - 1 := by
      unfold swapRemove
      cases hl : subs.getLast? with
      | none =>
          rw [List.getLast?_eq_none_iff] at hl
          subst hl
          simp at h
      | some last => simp
    omega

/-- struct ServerState: the lock-guarded timer plus the subscriber list
(subscribers stand for their stream, identified by a Nat). -/
structure ServerState where
  timer : Timer
  subs : List Nat

/-- ServerState::update: tick-and-render the timer, then broadcast the
line-terminated payload to the subscribers with the swap-remove loop.
Returns the new state and the (subscriber, line) pairs actually written. -/
def ServerState.update (ok : Nat → Bool) (now : Int) (st : ServerState) :
    ServerState × List (Nat × String) :=
  let tp := Timer.update now st.timer
  let message := tp.2.render ++ "\n"
  let loopResult := updateLoop ok st.subs 0 []
  ({ timer := tp.1, subs := loopResult.1 },
   loopResult.2.map (fun s => (s, message)))

/-!
Helper lemmas about the swap-remove broadcast loop.
-/

theorem swapRemove_decomp {α : Type} (l : List α) (last : α) (i : Nat)
    (h : i < l.length) (hl : l.getLast? = some last) :
    swapRemove l i = l.take i ++ ((l.drop i).set 0 last).dropLast := by
  have h0 : swapRemove l i = (l.set i last).dropLast := by
    unfold swapRemove
    rw [hl]
  rw [h0]
  have hlen : (l.take i).length = i := by simp [List.length_take]; omega
  conv_lhs => rw [← List.take_append_drop i l]
  rw [List.set_append_right _ _ (by omega : (l.take i).length ≤ i)]
  rw [hlen, Nat.sub_self]
  rw [List.dropLast_append_of_ne_nil]
  apply List.ne_nil_of_length_pos
  simp [List.length_set, List.length_drop]
  omega

theorem swapRemove_take {α : Type} (l : List α) (last : α) (i : Nat)
    (h : i < l.length) (hl : l.getLast? = some last) :
    (swapRemove l i).take i = l.take i := by
  rw [swapRemove_decomp l last i h hl]
  rw [List.take_left' (by simp [List.length_take]; omega)]

theorem swapRemove_drop_perm {α : Type} (l : List α) (last : α) (i : Nat)
    (h : i < l.length) (hl : l.getLast? = some last) :
    ((swapRemove l i).drop i).Perm (l.drop (i + 1)) := by
  rw [swapRemove_decomp l last i h hl]
  rw [List.drop_left' (by simp [List.length_take]; omega)]
  rw [List.drop_eq_getElem_cons h, List.set_cons_zero]
  by_cases ht : l.drop (i + 1) = []
  · rw [ht]
    simp
  · rw [List.dropLast_cons_of_ne_nil ht]
    have hlast : (l.drop (i + 1)).getLast ht = last := by
      have h1 : l.getLast? = (l.drop (i + 1)).getLast? := by
        conv_lhs => rw [← List.take_append_drop i l, List.drop_eq_getElem_cons h]
        rw [List.getLast?_append, List.getLast?_cons,
            List.getLast?_eq_getLast _ ht]
        simp
      rw [hl, List.getLast?_eq_getLast _ ht] at h1
      exact (Option.some.inj h1).symm
    have hcat : (l.drop (i + 1)).dropLast ++ [last] = l.drop (i + 1) := by
      rw [← hlast]
      exact List.dropLast_concat_getLast ht
    conv_rhs => rw [← hcat]
    exact (List.perm_append_singleton last _).symm

theorem updateLoop_spec (ok : Nat → Bool) (subs : List Nat) (i : Nat) (written : List Nat) :
    ∃ r : List Nat,
      updateLoop ok subs i written = (subs.take i ++ r, written ++ r) ∧
        r.Perm ((subs.drop i).filter ok) := by
  induction subs, i, written using updateLoop.induct ok with
  | case1 subs i written h s hok ih =>
      obtain ⟨r', hr1, hr2⟩ := ih
      have hs : s = subs.get ⟨i, h⟩ := rfl
      have hd : subs.drop i = s :: subs.drop (i + 1) := by
        rw [List.drop_eq_getElem_cons h]
        rfl
      refine ⟨s :: r', ?_, ?_⟩
      · rw [updateLoop]
        simp only [dif_pos h, hok, if_pos]
        rw [hr1]
        have ht : subs.take (i + 1) = subs.take i ++ [s] := by
          rw [hs, List.take_succ, List.getElem?_eq_getElem h]
          simp [List.get_eq_getElem]
        rw [ht]
        simp [List.append_assoc]
      · rw [hd, List.filter_cons]
        simp only [hok, if_pos]
        exact hr2.cons s
  | case2 subs i written h s hok ih =>
      obtain ⟨r', hr1, hr2⟩ := ih
      have hne : subs ≠ [] := List.ne_nil_of_length_pos (by omega)
      obtain ⟨last, hl⟩ := Option.isSome_iff_exists.mp (List.getLast?_isSome.mpr hne)
      have hd : subs.drop i = s :: subs.drop (i + 1) := by
        rw [List.drop_eq_getElem_cons h]
        rfl
      refine ⟨r', ?_, ?_⟩
      · rw [updateLoop]
        simp only [dif_pos h]
        rw [if_neg hok, hr1, swapRemove_take subs last i h hl]
      · have hp : ((swapRemove subs i).drop i).Perm (subs.drop (i + 1)) :=
          swapRemove_drop_perm subs last i h hl
        have hfe : ((subs.drop i).filter ok) = (subs.drop (i + 1)).filter ok := by
          rw [hd, List.filter_cons]
          simp [hok]
        rw [hfe]
        exact hr2.trans (hp.filter ok)
  | case3 subs i written h =>
      refine ⟨[], ?_, ?_⟩
      · rw [updateLoop]
        simp only [dif_neg h]
        rw [List.take_of_length_le (by omega)]
        simp
      · rw [List.drop_eq_nil_of_le (by omega)]
        simp

theorem updateLoop_all_ok (ok : Nat → Bool) (subs : List Nat) (i : Nat) (written : List Nat) :
    (∀ s ∈ subs, ok s = true) →
      updateLoop ok subs i written = (subs, written ++ subs.drop i) := by
  induction subs, i, written using updateLoop.induct ok with
  | case1 subs i written h s hok ih =>
      intro hall
      have hd : subs.drop i = s :: subs.drop (i + 1) := by
        rw [List.drop_eq_getElem_cons h]
        rfl
      rw [updateLoop]
      simp only [dif_pos h, hok, if_pos]
      rw [ih hall, hd]
      simp [List.append_assoc]
  | case2 subs i written h s hok ih =>
      intro hall
      exact absurd (hall s (List.get_mem subs i h)) hok
  | case3 subs i written h =>
      intro hall
      rw [updateLoop]
      simp only [dif_neg h]
      rw [List.drop_eq_nil_of_le (by omega)]
      simp

/-!
The claims.
-/

/-- Claim C1, counterexample: cancelling from Idle with cycles = 5 sets the
cycle counter to 0, not to 6; the counter is reset, never incremented. -/
theorem cancel_idle_cycles_counterexample :
    (Timer.cancel { cycles := 5, kind := TimerKind.Idle }).1.cycles = 0 ∧ (0 : Int) ≠ 5 + 1 := by
  decide

/-- Claim C1 (amended): cancel from any phase sets the phase to Idle and
returns Ok; a cancel from Idle resets the cycle counter to 0, and a cancel
from Running or Paused leaves the cycle counter unchanged. -/
theorem cancel_spec (t : Timer) :
    (Timer.cancel t).2 = Except.ok () ∧
    (Timer.cancel t).1.kind = TimerKind.Idle ∧
    (t.kind.isIdle = true → (Timer.cancel t).1.cycles = 0) ∧
    (t.kind.isIdle = false → (Timer.cancel t).1.cycles = t.cycles) := by
  obtain ⟨cy, k⟩ := t
  cases k <;> simp [Timer.cancel, TimerKind.isIdle]

/-- Claim C1, witness for the amended theorem at a concrete Running state. -/
theorem cancel_spec_witness :
    (Timer.cancel { cycles := 3, kind := TimerKind.Running 7 none }).2 = Except.ok () ∧
    (Timer.cancel { cycles := 3, kind := TimerKind.Running 7 none }).1.kind = TimerKind.Idle ∧
    (({ cycles := 3, kind := TimerKind.Running 7 none } : Timer).kind.isIdle = true →
      (Timer.cancel { cycles := 3, kind := TimerKind.Running 7 none }).1.cycles = 0) ∧
    (({ cycles := 3, kind := TimerKind.Running 7 none } : Timer).kind.isIdle = false →
      (Timer.cancel { cycles := 3, kind := TimerKind.Running 7 none }).1.cycles = 3) :=
  cancel_spec { cycles := 3, kind := TimerKind.Running 7 none }

/-- Claim C2, counterexample: the state Paused with -2100001 ms left is
reachable (start, togglepause, increase by -3600 s), and rendering it
yields a negative minutes text (-34). -/
theorem reachable_paused_negative_text_counterexample :
    Reachable { cycles := 0, kind := TimerKind.Paused (-2100001) none } ∧
    (Timer.update 0 { cycles := 0, kind := TimerKind.Paused (-2100001) none }).2.text < 0 := by
  constructor
  · have h0 : Reachable { cycles := 0, kind := TimerKind.Idle } := Reachable.init
    have h1 := Reachable.step 0 (Op.start none) h0
    have h2 := Reachable.step 0 Op.togglepause h1
    have h3 := Reachable.step 0 (Op.increase (-3600)) h2
    have he : applyOp 0 (Op.increase (-3600))
        (applyOp 0 Op.togglepause
          (applyOp 0 (Op.start none) { cycles := 0, kind := TimerKind.Idle }))
        = { cycles := 0, kind := TimerKind.Paused (-2100001) none } := by decide
    rw [he] at h3
    exact h3
  · decide

/-- Claim C2 (amended): for every reachable state, tick-and-render yields a
payload whose minutes text is non-negative whenever the post-tick phase is
not Paused, and the text is 0 when the post-tick phase is Idle; only a
Paused phase (whose remaining was driven negative) can render negative. -/
theorem render_text_nonneg_unless_paused (t : Timer) (now : Int) (hreach : Reachable t) :
    ((Timer.update now t).1.kind.isPaused = false → 0 ≤ (Timer.update now t).2.text) ∧
    ((Timer.update now t).1.kind = TimerKind.Idle → (Timer.update now t).2.text = 0) := by
  clear hreach
  obtain ⟨cy, k⟩ := t
  cases k with
  | Idle => simp [Timer.update]
  | Running e c =>
      by_cases hle : e - now ≤ 0
      · simp [Timer.update, hle]
      · have h1 : 0 ≤ Int.tdiv (e - now) 60000 :=
          Int.tdiv_nonneg (by omega) (by norm_num)
        simp [Timer.update, hle, TimerKind.isPaused]
        omega
  | Paused tl c => simp [Timer.update, TimerKind.isPaused]

/-- Claim C2, witness at the initial (reachable) Idle state. -/
theorem render_text_nonneg_unless_paused_witness :
    ((Timer.update 0 { cycles := 0, kind := TimerKind.Idle }).1.kind.isPaused = false →
      0 ≤ (Timer.update 0 { cycles := 0, kind := TimerKind.Idle }).2.text) ∧
    ((Timer.update 0 { cycles := 0, kind := TimerKind.Idle }).1.kind = TimerKind.Idle →
      (Timer.update 0 { cycles := 0, kind := TimerKind.Idle }).2.text = 0) :=
  render_text_nonneg_unless_paused { cycles := 0, kind := TimerKind.Idle } 0 Reachable.init

/-- Claim C3, counterexample: increase can drive a Paused remaining
negative, and the next tick-and-render leaves the timer Paused with that
negative remaining instead of treating it as elapsed. -/
theorem paused_negative_persists_counterexample :
    (Timer.increase (-2) { cycles := 0, kind := TimerKind.Paused 1000 none }).1
      = { cycles := 0, kind := TimerKind.Paused (-1000) none } ∧
    (Timer.update 5 { cycles := 0, kind := TimerKind.Paused (-1000) none }).1
      = { cycles := 0, kind := TimerKind.Paused (-1000) none } := by
  decide

/-- Claim C3 (amended): increase(delta) shifts a Running expiry and a
Paused remaining by delta seconds, and the Paused remaining may go
negative; but a tick never expires a Paused timer (the state is unchanged
across ticks); only after resuming via togglepause does a later tick treat
a non-positive remaining as elapsed. -/
theorem increase_shift_spec (cy e tl delta now now' : Int) (c : Option String) :
    Timer.increase delta { cycles := cy, kind := TimerKind.Running e c }
      = ({ cycles := cy, kind := TimerKind.Running (e + delta * 1000) c }, Except.ok ()) ∧
    Timer.increase delta { cycles := cy, kind := TimerKind.Paused tl c }
      = ({ cycles := cy, kind := TimerKind.Paused (tl + delta * 1000) c }, Except.ok ()) ∧
    (Timer.update now { cycles := cy, kind := TimerKind.Paused tl c }).1
      = { cycles := cy, kind := TimerKind.Paused tl c } ∧
    (tl ≤ 0 → now ≤ now' →
      (Timer.update now'
          (Timer.togglepause now { cycles := cy, kind := TimerKind.Paused tl c }).1).1
        = { cycles := cy + 1, kind := TimerKind.Idle }) := by
  refine ⟨by simp [Timer.increase], by simp [Timer.increase], by simp [Timer.update], ?_⟩
  intro h1 h2
  simp [Timer.togglepause, Timer.update, (by omega : now + tl - now' ≤ 0)]

/-- Claim C3, witness at concrete values (cycles 0, remaining -3 ms). -/
theorem increase_shift_spec_witness :
    Timer.increase 7 { cycles := 0, kind := TimerKind.Running 0 none }
      = ({ cycles := 0, kind := TimerKind.Running (0 + 7 * 1000) none }, Except.ok ()) ∧
    Timer.increase 7 { cycles := 0, kind := TimerKind.Paused (-3) none }
      = ({ cycles := 0, kind := TimerKind.Paused (-3 + 7 * 1000) none }, Except.ok ()) ∧
    (Timer.update 2 { cycles := 0, kind := TimerKind.Paused (-3) none }).1
      = { cycles := 0, kind := TimerKind.Paused (-3) none } ∧
    ((-3 : Int) ≤ 0 → (2 : Int) ≤ 4 →
      (Timer.update 4 (Timer.togglepause 2 { cycles := 0, kind := TimerKind.Paused (-3) none }).1).1
        = { cycles := 0 + 1, kind := TimerKind.Idle }) :=
  increase_shift_spec 0 0 (-3) 7 2 4 none

/-- Claim C4: start from Idle picks the minutes from the fixed schedule
over cycles mod 8 (5 for residues 1, 3, 5; 25 otherwise), sets
expiry = now + minutes - 1 ms and moves to Running carrying the command;
with cycles = 0 the immediately following render shows text 25 and a
running, focus-parity alt tag. -/
theorem start_idle_spec (t : Timer) (now : Int) (c : Option String)
    (h : t.kind = TimerKind.Idle) :
    Timer.start now c t
      = ({ cycles := t.cycles,
           kind := TimerKind.Running (now + startMinutes t.cycles * 60000 - 1) c },
         Except.ok ()) ∧
    startMinutes t.cycles
      = (if Int.tmod t.cycles 8 = 1 ∨ Int.tmod t.cycles 8 = 3 ∨ Int.tmod t.cycles 8 = 5
          then 5 else 25) ∧
    (t.cycles = 0 →
      (Timer.update now (Timer.start now c t).1).2.text = 25 ∧
      (Timer.update now (Timer.start now c t).1).2.alt = "running-focus") := by
  obtain ⟨cy, k⟩ := t
  simp only at h
  subst h
  refine ⟨by simp [Timer.start], rfl, ?_⟩
  intro h0
  simp only at h0
  subst h0
  have hm : startMinutes 0 = 25 := by decide
  simp only [Timer.start, hm]
  have h2 : now + 1500000 - 1 - now = (1499999 : Int) := by omega
  simp [Timer.update, h2]
  all_goals decide

/-- Claim C4, witness at cycles = 0, now = 0, no command. -/
theorem start_idle_spec_witness :
    ({ cycles := 0, kind := TimerKind.Idle } : Timer).kind = TimerKind.Idle ∧
    (Timer.start 0 none { cycles := 0, kind := TimerKind.Idle }
      = ({ cycles := 0,
           kind := TimerKind.Running (0 + startMinutes 0 * 60000 - 1) none },
         Except.ok ()) ∧
    startMinutes 0
      = (if Int.tmod 0 8 = 1 ∨ Int.tmod 0 8 = 3 ∨ Int.tmod 0 8 = 5 then 5 else 25) ∧
    ((0 : Int) = 0 →
      (Timer.update 0 (Timer.start 0 none { cycles := 0, kind := TimerKind.Idle }).1).2.text
        = 25 ∧
      (Timer.update 0 (Timer.start 0 none { cycles := 0, kind := TimerKind.Idle }).1).2.alt
        = "running-focus")) :=
  ⟨rfl, start_idle_spec { cycles := 0, kind := TimerKind.Idle } 0 none rfl⟩

/-- Claim C5: a tick on a Running timer whose expiry has passed (expiry at
or before now) increments cycles by exactly one and moves to Idle; and
after any tick, a phase that is still Running has expiry strictly after
now. -/
theorem tick_expiry_spec (t : Timer) (now : Int) :
    (∀ e c, t.kind = TimerKind.Running e c → e ≤ now →
      (Timer.update now t).1 = { cycles := t.cycles + 1, kind := TimerKind.Idle }) ∧
    (∀ e c, (Timer.update now t).1.kind = TimerKind.Running e c → now < e) := by
  obtain ⟨cy, k⟩ := t
  cases k with
  | Idle => simp [Timer.update]
  | Running e c =>
      constructor
      · intro e' c' he hle'
        obtain ⟨he1, he2⟩ : e = e' ∧ c = c' := by simpa using he
        have hle : e - now ≤ 0 := by omega
        simp [Timer.update, hle]
      · intro e' c' he
        by_cases hle : e - now ≤ 0
        · simp [Timer.update, hle] at he
        · simp [Timer.update, hle] at he
          obtain ⟨he1, he2⟩ := he
          omega
  | Paused tl c => simp [Timer.update]

/-- Claim C5, witness: ticking an expired Running timer at now = 3. -/
theorem tick_expiry_spec_witness :
    (Timer.update 3 { cycles := 0, kind := TimerKind.Running (-5) none }).1
      = { cycles := 0 + 1, kind := TimerKind.Idle } :=
  (tick_expiry_spec { cycles := 0, kind := TimerKind.Running (-5) none } 3).1
    (-5) none rfl (by decide)

/-- Claim C6: increase, skip and togglepause on an Idle timer fail with
NoTimerExisting and return the timer (phase and cycle counter) unchanged. -/
theorem idle_ops_fail_spec (t : Timer) (delta now : Int) (h : t.kind = TimerKind.Idle) :
    Timer.increase delta t = (t, Except.error WorldError.NoTimerExisting) ∧
    Timer.skip now t = (t, Except.error WorldError.NoTimerExisting) ∧
    Timer.togglepause now t = (t, Except.error WorldError.NoTimerExisting) := by
  obtain ⟨cy, k⟩ := t
  simp only at h
  subst h
  exact ⟨rfl, rfl, rfl⟩

/-- Claim C6, witness at cycles = 7, delta = 60, now = 11. -/
theorem idle_ops_fail_spec_witness :
    ({ cycles := 7, kind := TimerKind.Idle } : Timer).kind = TimerKind.Idle ∧
    (Timer.increase 60 { cycles := 7, kind := TimerKind.Idle }
      = ({ cycles := 7, kind := TimerKind.Idle }, Except.error WorldError.NoTimerExisting) ∧
    Timer.skip 11 { cycles := 7, kind := TimerKind.Idle }
      = ({ cycles := 7, kind := TimerKind.Idle }, Except.error WorldError.NoTimerExisting) ∧
    Timer.togglepause 11 { cycles := 7, kind := TimerKind.Idle }
      = ({ cycles := 7, kind := TimerKind.Idle }, Except.error WorldError.NoTimerExisting)) :=
  ⟨rfl, idle_ops_fail_spec { cycles := 7, kind := TimerKind.Idle } 60 11 rfl⟩

/-- Claim C7: two togglepause calls at the same instant from a Running
phase restore the exact Running state (same expiry, same command, same
cycle counter), both calls returning Ok. -/
theorem togglepause_involution (cy e : Int) (c : Option String) (now : Int) :
    (Timer.togglepause now
        (Timer.togglepause now { cycles := cy, kind := TimerKind.Running e c }).1).1
      = { cycles := cy, kind := TimerKind.Running e c } ∧
    (Timer.togglepause now { cycles := cy, kind := TimerKind.Running e c }).2
      = Except.ok () ∧
    (Timer.togglepause now
        (Timer.togglepause now { cycles := cy, kind := TimerKind.Running e c }).1).2
      = Except.ok () := by
  refine ⟨?_, rfl, rfl⟩
  have h : now + (e - now) = e := by omega
  simp [Timer.togglepause, h]

/-- Claim C8, counterexample: with subscribers [1, 2, 3] and the write to 1
failing, the loop writes to 3 before 2 (swap-remove moved the last
subscriber into the failed slot), so broadcast order is not insertion
order of the survivors. -/
theorem broadcast_order_counterexample :
    (updateLoop (fun n => n != 1) [1, 2, 3] 0 []).2 = [3, 2] ∧
    List.filter (fun n => n != 1) [1, 2, 3] = [2, 3] ∧
    ([3, 2] : List Nat) ≠ [2, 3] := by
  refine ⟨?_, by decide, by decide⟩
  simp [updateLoop, swapRemove]

/-- Claim C8 (amended): update removes exactly the subscribers whose write
fails (the survivors are a permutation of the write-successful ones), every
surviving subscriber is written the line-terminated rendered payload
exactly once, and when no write fails the broadcast order is exactly the
insertion order; when a write fails, swap-remove may reorder the remaining
broadcasts. -/
theorem server_update_broadcast_spec (ok : Nat → Bool) (st : ServerState) (now : Int) :
    ((ServerState.update ok now st).1.subs).Perm (st.subs.filter ok) ∧
    ((ServerState.update ok now st).2
      = ((ServerState.update ok now st).1.subs).map
          (fun s => (s, ((Timer.update now st.timer).2.render ++ "\n")))) ∧
    ((∀ s ∈ st.subs, ok s = true) →
      (ServerState.update ok now st).2
        = st.subs.map (fun s => (s, ((Timer.update now st.timer).2.render ++ "\n")))) := by
  obtain ⟨r, hr1, hr2⟩ := updateLoop_spec ok st.subs 0 []
  simp only [List.take_zero, List.nil_append] at hr1
  simp only [List.drop_zero] at hr2
  refine ⟨?_, ?_, ?_⟩
  · simp only [ServerState.update, hr1]
    exact hr2
  · simp only [ServerState.update, hr1]
  · intro hall
    simp only [ServerState.update, updateLoop_all_ok ok st.subs 0 [] hall]
    simp

/-- Claim C8, witness: all writes succeed on subscribers [4, 6]. -/
theorem server_update_broadcast_spec_witness :
    ((ServerState.update (fun _ => true) 0
        { timer := { cycles := 0, kind := TimerKind.Idle }, subs := [4, 6] }).1.subs).Perm
      (List.filter (fun _ => true) [4, 6]) ∧
    ((ServerState.update (fun _ => true) 0
        { timer := { cycles := 0, kind := TimerKind.Idle }, subs := [4, 6] }).2
      = ((ServerState.update (fun _ => true) 0
            { timer := { cycles := 0, kind := TimerKind.Idle }, subs := [4, 6] }).1.subs).map
          (fun s => (s,
            ((Timer.update 0 { cycles := 0, kind := TimerKind.Idle }).2.render ++ "\n")))) ∧
    ((∀ s ∈ ([4, 6] : List Nat), (fun _ => true) s = true) →
      (ServerState.update (fun _ => true) 0
          { timer := { cycles := 0, kind := TimerKind.Idle }, subs := [4, 6] }).2
        = ([4, 6] : List Nat).map
            (fun s => (s,
              ((Timer.update 0 { cycles := 0, kind := TimerKind.Idle }).2.render ++ "\n")))) :=
  server_update_broadcast_spec (fun _ => true)
    { timer := { cycles := 0, kind := TimerKind.Idle }, subs := [4, 6] } 0

/-- Claim C9: the optional completion command is carried across every
Running-to-Paused and Paused-to-Running transition (togglepause both ways,
and skip from Paused which resumes through togglepause), and these
operations leave the cycle counter unchanged. -/
theorem command_carried_spec (cy e tl now : Int) (c : Option String) :
    (Timer.togglepause now { cycles := cy, kind := TimerKind.Running e c }).1
      = { cycles := cy, kind := TimerKind.Paused (e - now) c } ∧
    (Timer.togglepause now { cycles := cy, kind := TimerKind.Paused tl c }).1
      = { cycles := cy, kind := TimerKind.Running (now + tl) c } ∧
    (Timer.skip now { cycles := cy, kind := TimerKind.Paused tl c }).1
      = { cycles := cy, kind := TimerKind.Running (now + 0) c } := by
  exact ⟨rfl, rfl, rfl⟩

/-- Claim C10: cancel and start return Ok in every phase (start on an
active timer delegates to togglepause), and no operation ever returns the
TimerAlreadyExisting error. -/
theorem no_timer_already_existing (t : Timer) (c : Option String) (delta now : Int) :
    (Timer.cancel t).2 = Except.ok () ∧
    (Timer.start now c t).2 = Except.ok () ∧
    (Timer.increase delta t).2 ≠ Except.error WorldError.TimerAlreadyExisting ∧
    (Timer.skip now t).2 ≠ Except.error WorldError.TimerAlreadyExisting ∧
    (Timer.togglepause now t).2 ≠ Except.error WorldError.TimerAlreadyExisting ∧
    (t.kind.isIdle = false → Timer.start now c t = Timer.togglepause now t) := by
  obtain ⟨cy, k⟩ := t
  cases k <;>
    simp [Timer.cancel, Timer.start, Timer.increase, Timer.skip, Timer.togglepause,
      TimerKind.isIdle]

/-- Claim C10, witness at a concrete Paused state. -/
theorem no_timer_already_existing_witness :
    (Timer.cancel { cycles := 1, kind := TimerKind.Paused 9 none }).2 = Except.ok () ∧
    (Timer.start 4 none { cycles := 1, kind := TimerKind.Paused 9 none }).2 = Except.ok () ∧
    (Timer.increase 5 { cycles := 1, kind := TimerKind.Paused 9 none }).2
      ≠ Except.error WorldError.TimerAlreadyExisting ∧
    (Timer.skip 4 { cycles := 1, kind := TimerKind.Paused 9 none }).2
      ≠ Except.error WorldError.TimerAlreadyExisting ∧
    (Timer.togglepause 4 { cycles := 1, kind := TimerKind.Paused 9 none }).2
      ≠ Except.error WorldError.TimerAlreadyExisting ∧
    (({ cycles := 1, kind := TimerKind.Paused 9 none } : Timer).kind.isIdle = false →
      Timer.start 4 none { cycles := 1, kind := TimerKind.Paused 9 none }
        = Timer.togglepause 4 { cycles := 1, kind := TimerKind.Paused 9 none }) :=
  no_timer_already_existing { cycles := 1, kind := TimerKind.Paused 9 none } none 5 4
